import Mathlib

/-!
Verification of the better-result library: a Result-of-computation
abstraction (Ok/Err union with map, andThen, try/retry, hydrate and a
generator-based composition protocol) plus a TaggedError taxonomy with an
UnhandledException wrapper.

The TaggedError taxonomy (src/error.ts) is embedded from its source.
The Result core (src/result.ts) is not part of the provided sources
(only its tests and re-exports are), so its operations are modelled from
the specification, each marked `Modelled from the spec:` in its doc
comment.
-/

namespace BetterResult

/-- Modelled from the spec: the Result data type of the missing
src/result.ts — a closed two-variant union, Ok holding a value and Err
holding an error. -/
inductive Result (T E : Type) : Type where
  | ok (value : T)
  | err (error : E)
deriving Repr, DecidableEq

namespace Result

/-- Modelled from the spec: `map(r, fn)` of the missing src/result.ts —
if Ok, apply fn to the value and return Ok of the image; if Err, return
r unchanged. -/
def map {T E V : Type} (r : Result T E) (fn : T → V) : Result V E :=
  match r with
  | .ok v => .ok (fn v)
  | .err e => .err e

/-- Modelled from the spec: `mapError(r, fn)` of the missing
src/result.ts — the error-side dual of map. -/
def mapError {T E F : Type} (r : Result T E) (fn : E → F) : Result T F :=
  match r with
  | .ok v => .ok v
  | .err e => .err (fn e)

/-- Modelled from the spec: `andThen(r, fn)` of the missing
src/result.ts — monadic bind: if Ok, return the Result produced by fn
directly; if Err, short-circuit and return r unchanged. -/
def andThen {T E V : Type} (r : Result T E) (fn : T → Result V E) : Result V E :=
  match r with
  | .ok v => fn v
  | .err e => .err e

/-- Modelled from the spec: `andThenAsync(r, fn)` of the missing
src/result.ts — same contract as andThen once the asynchronous
continuation has resolved (asynchrony is erased in this embedding). -/
def andThenAsync {T E V : Type} (r : Result T E) (fn : T → Result V E) : Result V E :=
  match r with
  | .ok v => fn v
  | .err e => .err e

/-- Modelled from the spec: andThen instrumented with the number of
invocations of the continuation, to express the contract that fn is
never invoked on an Err input. -/
def andThenTraced {T E V : Type} (r : Result T E) (fn : T → Result V E) :
    Result V E × Nat :=
  match r with
  | .ok v => (fn v, 1)
  | .err e => (.err e, 0)

/-- Modelled from the spec: `tap(r, fn)` of the missing src/result.ts —
run fn for its side effect only when Ok and return r unchanged; the
count records the invocations of fn. -/
def tapTraced {T E : Type} (r : Result T E) (fn : T → Unit) : Result T E × Nat :=
  match r with
  | .ok v => let _ := fn v; ((.ok v), 1)
  | .err e => ((.err e), 0)

/-- Modelled from the spec: andThenAsync instrumented with the number of
invocations of the continuation, to express the contract that fn is
never invoked on an Err input. -/
def andThenAsyncTraced {T E V : Type} (r : Result T E) (fn : T → Result V E) :
    Result V E × Nat :=
  match r with
  | .ok v => (fn v, 1)
  | .err e => (.err e, 0)

/-- Modelled from the spec: `unwrapOr(r, fallback)` of the missing
src/result.ts — the contained value for Ok, the fallback for Err. -/
def unwrapOr {T E : Type} (r : Result T E) (fallback : T) : T :=
  match r with
  | .ok v => v
  | .err _ => fallback

end Result

/-- Modelled from the spec: a producer for the generator composition
protocol of the missing src/result.ts — at each step it yields a Result
and, when resumed, receives back the unwrapped success value; it finally
returns a Result as the overall outcome. Yielded Results carry values of
a fixed type V and errors of type E; the final Result carries A. -/
inductive Gen (V E A : Type) : Type where
  | step (r : Result V E) (k : V → Gen V E A)
  | done (r : Result A E)

namespace Result

/-- Modelled from the spec: the `gen` driver of the missing
src/result.ts — inspect each yielded Result; if Ok, resume the producer
with the contained value; if Err, terminate the producer and return that
Err as-is. -/
def gen {V E A : Type} : Gen V E A → Result A E
  | .done r => r
  | .step (.ok v) k => gen (k v)
  | .step (.err e) _ => .err e

/-- Modelled from the spec: the gen driver instrumented with the number
of times the producer is resumed with a fed-back value, to express that
an Err terminates the producer without resuming it. -/
def genTraced {V E A : Type} : Gen V E A → Result A E × Nat
  | .done r => (r, 0)
  | .step (.ok v) k =>
      let p := genTraced (k v)
      (p.1, p.2 + 1)
  | .step (.err e) _ => (.err e, 0)

end Result

/-- A standard JavaScript Error value: name and message, as inspected by
src/error.ts (instanceof Error, .message). -/
structure JSError : Type where
  name : String
  message : String
deriving Repr, DecidableEq

/-- A JavaScript runtime value, as far as the embedded code inspects
one: null, undefined, booleans, numbers (integral here), strings, Error
instances, plain objects as ordered field lists, and Result instances
(which are objects but not plain mappings). -/
inductive JSVal : Type where
  | null
  | undefined
  | boolean (b : Bool)
  | num (n : Int)
  | str (s : String)
  | error (e : JSError)
  | obj (fields : List (String × JSVal))
  | resultInst (status : String) (payload : JSVal)

/-- The string held by a plain mapping's status field, when that field
is present and is a string. -/
def statusOf (fields : List (String × JSVal)) : Option String :=
  match fields.lookup "status" with
  | some (.str s) => some s
  | _ => none

/-- JavaScript default string coercion String(v), used by
UnhandledException for non-Error causes (src/error.ts line 86). -/
def jsToString : JSVal → String
  | .null => "null"
  | .undefined => "undefined"
  | .boolean b => if b then "true" else "false"
  | .num n => toString n
  | .str s => s
  | .error e => if e.message = "" then e.name else e.name ++ ": " ++ e.message
  | .obj _ => "[object Object]"
  | .resultInst _ _ => "[object Object]"

/-- The UnhandledException error of src/error.ts: a TaggedError with
literal tag "UnhandledException"; name is set by the TaggedError
constructor to the concrete class name, message and cause by the
UnhandledException constructor. -/
structure UnhandledException : Type where
  tag : String
  name : String
  message : String
  cause : JSVal

/-- The UnhandledException constructor of src/error.ts lines 82-89:
message is "Unhandled exception: " followed by the cause's message when
the cause is an Error instance and by String(cause) otherwise; the cause
is stored via the Error options. -/
def UnhandledException.make (cause : JSVal) : UnhandledException :=
  { tag := "UnhandledException"
    name := "UnhandledException"
    message := "Unhandled exception: " ++
      (match cause with
       | .error e => e.message
       | c => jsToString c)
    cause := cause }

/-- A TaggedError value as inspected by the static matchers of
src/error.ts: the string discriminator and the subclass's own data. -/
structure TaggedError (A : Type) : Type where
  tag : String
  payload : A

/-- TaggedError.match of src/error.ts lines 45-55: look the runtime tag
up in the handler mapping; if no handler is found, throw
"No handler for error tag: " followed by the tag, otherwise return the
handler applied to the error. Handlers are modelled as an association
list keyed by tag; the thrown Error travels in the Except channel. -/
def TaggedError.matchOn {A T : Type} (error : TaggedError A)
    (handlers : List (String × (TaggedError A → T))) : Except String T :=
  match handlers.lookup error.tag with
  | some handler => Except.ok (handler error)
  | none => Except.error ("No handler for error tag: " ++ error.tag)

namespace Result

/-- Modelled from the spec: `try({try, catch})` / `tryPromise` of the
missing src/result.ts with a custom catch handler — invoke the wrapped
operation (its throw or rejection travels in the Except channel); on
success wrap the return value in Ok; on a thrown value invoke the
handler with it and wrap its return in Err. -/
def tryCatch {T E : Type} (op : Except JSVal T) (catchFn : JSVal → E) : Result T E :=
  match op with
  | .ok v => .ok v
  | .error ex => .err (catchFn ex)

/-- Modelled from the spec: `try(operation)` / `tryPromise` of the
missing src/result.ts without a custom catch handler — on success Ok of
the return value; on a thrown value Err of an UnhandledException
wrapping it. -/
def tryDefault {T : Type} (op : Except JSVal T) : Result T UnhandledException :=
  match op with
  | .ok v => .ok v
  | .error ex => .err (UnhandledException.make ex)

/-- Modelled from the spec: the retry loop of `try` / `tryPromise` of
the missing src/result.ts — the operation is modelled as a map from the
attempt index (1-based) to that attempt's outcome; `fuel` counts the
attempts still allowed after the current one. Returns the final Result
together with the number of invocations performed. -/
def tryRetryAux {T E : Type} (op : Nat → Except JSVal T) (catchFn : JSVal → E)
    (attempt fuel : Nat) : Result T E × Nat :=
  match fuel with
  | 0 =>
    (match op attempt with
     | .ok v => (.ok v, attempt)
     | .error ex => (.err (catchFn ex), attempt))
  | f + 1 =>
    match op attempt with
    | .ok v => (.ok v, attempt)
    | .error _ => tryRetryAux op catchFn (attempt + 1) f

/-- Modelled from the spec: `try` / `tryPromise` under a retry policy
with `times` total attempts — attempts start at 1 and the operation is
attempted up to `times` times; after the final failed attempt its
captured failure (through the catch handler) becomes the returned Err.
Inter-attempt delays are timing only and are not modelled. -/
def tryRetry {T E : Type} (op : Nat → Except JSVal T) (catchFn : JSVal → E)
    (times : Nat) : Result T E × Nat :=
  tryRetryAux op catchFn 1 (times - 1)

/-- Modelled from the spec: `hydrate(value)` of the missing
src/result.ts — returns the corresponding Ok or Err iff the value is a
plain mapping whose status field is exactly "ok" with a value field or
exactly "error" with an error field; otherwise returns the null
sentinel (modelled as none). -/
def hydrate (v : JSVal) : Option (Result JSVal JSVal) :=
  match v with
  | .obj fields =>
    if statusOf fields = some "ok" then
      match fields.lookup "value" with
      | some pv => some (.ok pv)
      | none => none
    else if statusOf fields = some "error" then
      match fields.lookup "error" with
      | some pe => some (.err pe)
      | none => none
    else none
  | _ => none

/-- Modelled from the spec: `unwrap(r, message?)` of the missing
src/result.ts — the contained value for Ok; for Err, raise an Error
with the given message if provided, otherwise a default message that
includes the error's content (rendered by `toStr`). The raise travels
in the Except channel. -/
def unwrap {T E : Type} (toStr : E → String) (r : Result T E)
    (msg : Option String) : Except JSVal T :=
  match r with
  | .ok v => .ok v
  | .err e =>
    .error (.error ⟨"Error",
      match msg with
      | some m => m
      | none => "Tried to unwrap an Err result: " ++ toStr e⟩)

end Result

/-- One step of a Result-core pipeline over Int values: the operations a
caller can chain without ever calling unwrap, including a try-wrapped
operation that may throw and a generator composition. -/
inductive Step (E : Type) : Type where
  | mapStep (f : Int → Int)
  | mapErrorStep (f : E → E)
  | andThenStep (f : Int → Result Int E)
  | tapStep (f : Int → Unit)
  | tryStep (op : Int → Except JSVal Int) (catchFn : JSVal → E)
  | genStep (g : Int → Gen Int E Int)

/-- Evaluate one core operation in the exception channel: a raised
exception escaping the operation would surface as Except.error. Each
operation's body is the corresponding core definition, none of which
contains a raise. -/
def evalStep {E : Type} (r : Result Int E) : Step E → Except JSVal (Result Int E)
  | .mapStep f => .ok (r.map f)
  | .mapErrorStep f => .ok (r.mapError f)
  | .andThenStep f => .ok (r.andThen f)
  | .tapStep f => .ok (r.tapTraced f).1
  | .tryStep op catchFn => .ok (r.andThen fun v => Result.tryCatch (op v) catchFn)
  | .genStep g => .ok (r.andThen fun v => Result.gen (g v))

/-- Evaluate a whole pipeline of core operations in the exception
channel, propagating any raised exception. -/
def evalChain {E : Type} (r : Result Int E) : List (Step E) → Except JSVal (Result Int E)
  | [] => .ok r
  | s :: rest =>
    match evalStep r s with
    | .ok r2 => evalChain r2 rest
    | .error ex => .error ex

/-- Operation from the spec's retry example: fails on attempts 1 and 2,
succeeds on attempt 3. -/
def retryOpEx : Nat → Except JSVal String := fun n =>
  if n < 3 then .error (.str "fail") else .ok "success"

/-- Producer from the spec examples: yields ok(1), ok(2), ok(3)
sequentially and returns their sum. -/
def sumProducer : Gen Nat String Nat :=
  .step (.ok 1) fun a =>
    .step (.ok 2) fun b =>
      .step (.ok 3) fun c =>
        .done (.ok (a + b + c))

/-- Producer from the spec examples: first yield is err "x"; the
continuation stands for all subsequent steps. -/
def errProducer (k : Nat → Gen Nat String Nat) : Gen Nat String Nat :=
  .step (.err "x") k

/-- C1: andThen with ok as unit satisfies the three monad laws for every
Result: left identity `ok(a).andThen(f) = f(a)`, right identity
`m.andThen(ok) = m`, and associativity
`(m.andThen(f)).andThen(g) = m.andThen(x => f(x).andThen(g))`, including
when m is Err and when f returns Err (the laws hold with no restriction
on m, f or g). -/
theorem andThen_monad_laws {T U V E : Type} :
    (∀ (a : T) (f : T → Result U E), (Result.ok a).andThen f = f a) ∧
    (∀ (m : Result T E), m.andThen Result.ok = m) ∧
    (∀ (m : Result T E) (f : T → Result U E) (g : U → Result V E),
      (m.andThen f).andThen g = m.andThen (fun x => (f x).andThen g)) := by
  refine ⟨fun a f => rfl, fun m => ?_, fun m f g => ?_⟩
  · cases m <;> rfl
  · cases m <;> rfl

/-- C2: in the gen composition protocol, each yielded Ok resumes the
producer with the contained value (resumption count increases by one and
the outcome is the continuation's outcome at that value); the first
yielded Err terminates the producer without resuming it (resumption
count 0, for every continuation, so no later step executes) and the
overall call returns that Err as-is. The producer yielding ok(1), ok(2),
ok(3) and returning their sum yields Ok 6 after 3 resumptions; the
producer whose first yield is err "x" yields Err "x" with no resumption,
whatever its later steps would have been. -/
theorem gen_protocol {V E A : Type} :
    (∀ (v : V) (k : V → Gen V E A),
      Result.gen (.step (.ok v) k) = Result.gen (k v) ∧
      (Result.genTraced (.step (.ok v) k)).2 = (Result.genTraced (k v)).2 + 1) ∧
    (∀ (e : E) (k : V → Gen V E A),
      Result.gen (.step (.err e) k) = .err e ∧
      (Result.genTraced (.step (.err e) k)).2 = 0) ∧
    (Result.gen sumProducer = .ok 6 ∧ (Result.genTraced sumProducer).2 = 3) ∧
    (∀ (k : Nat → Gen Nat String Nat),
      Result.gen (errProducer k) = .err "x" ∧
      (Result.genTraced (errProducer k)).2 = 0) :=
  ⟨fun _ _ => ⟨rfl, rfl⟩, fun _ _ => ⟨rfl, rfl⟩, ⟨rfl, rfl⟩, fun _ => ⟨rfl, rfl⟩⟩

/-- C7: andThen applied to an Ok returns exactly the Result produced by
the continuation at the contained value (no double-wrapping); applied to
an Err, andThen and andThenAsync return the Err unchanged and never
invoke the continuation (invocation count 0). -/
theorem andThen_contract {T E V : Type} :
    (∀ (v : T) (fn : T → Result V E), Result.andThen (.ok v) fn = fn v) ∧
    (∀ (e : E) (fn : T → Result V E),
      Result.andThen (.err e) fn = .err e ∧
      Result.andThenAsync (.err e) fn = .err e ∧
      (Result.andThenTraced (.err e) fn).2 = 0 ∧
      (Result.andThenAsyncTraced (.err e) fn).2 = 0) :=
  ⟨fun _ _ => rfl, fun _ _ => ⟨rfl, rfl, rfl, rfl⟩⟩

/-- C8: map applied to an Ok returns Ok of the image of the contained
value; applied to an Err it returns the Err unchanged (the same value,
never mutated). -/
theorem map_contract {T E V : Type} :
    (∀ (v : T) (fn : T → V),
      Result.map (Result.ok v : Result T E) fn = .ok (fn v)) ∧
    (∀ (e : E) (fn : T → V),
      Result.map (Result.err e : Result T E) fn = .err e) :=
  ⟨fun _ _ => rfl, fun _ _ => rfl⟩

/-- C3: for every operation passed to try (and, for rejections,
tryPromise): a normal return yields Ok of the return value; a throw with
a custom catch handler supplied yields Err of the handler applied to the
thrown value; a throw with no custom catch handler yields Err of an
UnhandledException whose cause is the original thrown value. -/
theorem try_capture {T E : Type} (op : Except JSVal T) (catchFn : JSVal → E) :
    (∀ v, op = .ok v →
      Result.tryCatch op catchFn = .ok v ∧ Result.tryDefault op = .ok v) ∧
    (∀ ex, op = .error ex →
      Result.tryCatch op catchFn = .err (catchFn ex) ∧
      Result.tryDefault op = .err (UnhandledException.make ex) ∧
      (UnhandledException.make ex).cause = ex) := by
  constructor
  · rintro v rfl; exact ⟨rfl, rfl⟩
  · rintro ex rfl; exact ⟨rfl, rfl, rfl⟩

/-- Witness for C3 at the spec's example: a thrown Error "boom" with no
custom handler becomes Err of an UnhandledException caused by it, and a
normal return of 42 becomes Ok 42. -/
theorem try_capture_witness :
    Result.tryDefault (Except.error (JSVal.error ⟨"Error", "boom"⟩) : Except JSVal Nat) =
      Result.err (UnhandledException.make (JSVal.error ⟨"Error", "boom"⟩)) ∧
    Result.tryCatch (Except.ok 42 : Except JSVal Nat) (fun _ => "caught") =
      Result.ok 42 :=
  ⟨((try_capture (Except.error (JSVal.error ⟨"Error", "boom"⟩))
      (fun _ => "caught")).2 (JSVal.error ⟨"Error", "boom"⟩) rfl).2.1,
   ((try_capture (Except.ok 42) (fun _ => "caught")).1 42 rfl).1⟩

/-- C9: TaggedError.match dispatches to the handler whose key equals the
error's runtime tag and returns that handler's result, and raises
exactly when no key of the handler mapping matches the tag. -/
theorem tagged_match_dispatch {A T : Type} (e : TaggedError A)
    (handlers : List (String × (TaggedError A → T))) :
    (∀ f, handlers.lookup e.tag = some f →
      TaggedError.matchOn e handlers = Except.ok (f e)) ∧
    ((∃ m, TaggedError.matchOn e handlers = Except.error m) ↔
      handlers.lookup e.tag = none) := by
  constructor
  · intro f hf
    unfold TaggedError.matchOn
    rw [hf]
  · unfold TaggedError.matchOn
    cases h : handlers.lookup e.tag with
    | some f => simp
    | none => simp

/-- Witness for C9 at the test's example: a NotFoundError-tagged error
dispatched through a handler mapping containing its tag returns that
handler's result. -/
theorem tagged_match_dispatch_witness :
    TaggedError.matchOn (TaggedError.mk "NotFoundError" "123")
      [("NotFoundError", fun e => "missing: " ++ e.payload),
       ("ValidationError", fun e => "invalid: " ++ e.payload)] =
      Except.ok "missing: 123" :=
  (tagged_match_dispatch (TaggedError.mk "NotFoundError" "123")
      [("NotFoundError", fun e => "missing: " ++ e.payload),
       ("ValidationError", fun e => "invalid: " ++ e.payload)]).1
    (fun e => "missing: " ++ e.payload) rfl

/-- C10: every UnhandledException built from a cause c has tag
"UnhandledException", stores c itself as its cause, and has message
"Unhandled exception: " followed by c's message when c is an Error
instance and by the default string coercion of c otherwise; in
particular the message for cause null is "Unhandled exception: null". -/
theorem unhandled_exception_shape (c : JSVal) :
    (UnhandledException.make c).tag = "UnhandledException" ∧
    (UnhandledException.make c).cause = c ∧
    (∀ e, c = JSVal.error e →
      (UnhandledException.make c).message = "Unhandled exception: " ++ e.message) ∧
    ((∀ e, c ≠ JSVal.error e) →
      (UnhandledException.make c).message = "Unhandled exception: " ++ jsToString c) ∧
    (UnhandledException.make JSVal.null).message = "Unhandled exception: null" := by
  refine ⟨rfl, rfl, ?_, ?_, rfl⟩
  · rintro e rfl; rfl
  · intro h
    cases c with
    | error e => exact absurd rfl (h e)
    | null => rfl
    | undefined => rfl
    | boolean b => rfl
    | num n => rfl
    | str s => rfl
    | obj fields => rfl
    | resultInst s p => rfl

/-- Witness for C10 at the tests' examples: an Error cause contributes
its message; a string cause is coerced by String(). -/
theorem unhandled_exception_shape_witness :
    (UnhandledException.make (JSVal.error ⟨"Error", "original"⟩)).message =
      "Unhandled exception: original" ∧
    (UnhandledException.make (JSVal.str "string error")).message =
      "Unhandled exception: string error" :=
  ⟨((unhandled_exception_shape (JSVal.error ⟨"Error", "original"⟩)).2.2.1
      ⟨"Error", "original"⟩ rfl).trans rfl,
   ((unhandled_exception_shape (JSVal.str "string error")).2.2.2.1
      (fun _ h => JSVal.noConfusion h)).trans rfl⟩

/-- Helper: the retry loop started at attempt `a` with `fuel` further
attempts allowed returns the first success within the window together
with its attempt index, and otherwise the last attempt's captured
failure together with the last attempt's index. -/
theorem tryRetryAux_spec {T E : Type} (op : Nat → Except JSVal T)
    (catchFn : JSVal → E) :
    ∀ (fuel a : Nat),
      (∀ k v, a ≤ k → k ≤ a + fuel → op k = .ok v →
        (∀ j, a ≤ j → j < k → ∃ ex, op j = .error ex) →
        Result.tryRetryAux op catchFn a fuel = (.ok v, k)) ∧
      ((∀ j, a ≤ j → j ≤ a + fuel → ∃ ex, op j = .error ex) →
        ∃ ex, op (a + fuel) = .error ex ∧
          Result.tryRetryAux op catchFn a fuel = (.err (catchFn ex), a + fuel)) := by
  intro fuel
  induction fuel with
  | zero =>
    intro a
    constructor
    · intro k v hak hka hop _
      have hk : k = a := by omega
      subst hk
      simp [Result.tryRetryAux, hop]
    · intro hall
      obtain ⟨ex, hex⟩ := hall a le_rfl (by omega)
      exact ⟨ex, by simpa using hex, by simp [Result.tryRetryAux, hex]⟩
  | succ f ih =>
    intro a
    constructor
    · intro k v hak hka hop hprev
      by_cases hka2 : k = a
      · subst hka2
        simp [Result.tryRetryAux, hop]
      · have halt : a < k := lt_of_le_of_ne hak (Ne.symm hka2)
        obtain ⟨ex, hex⟩ := hprev a le_rfl halt
        have hrec := (ih (a + 1)).1 k v halt (by omega) hop
          (fun j hj1 hj2 => hprev j (by omega) hj2)
        simpa [Result.tryRetryAux, hex] using hrec
    · intro hall
      obtain ⟨ex0, hex0⟩ := hall a le_rfl (by omega)
      obtain ⟨ex, hex, hres⟩ := (ih (a + 1)).2
        (fun j hj1 hj2 => hall j (by omega) (by omega))
      have harith : a + (f + 1) = (a + 1) + f := by omega
      rw [harith]
      exact ⟨ex, hex, by simpa [Result.tryRetryAux, hex0] using hres⟩

/-- C5: under a retry policy with `times` total attempts (`times ≥ 1`),
try and tryPromise invoke the operation exactly
min(times, attempts-until-first-success) times: if the first success
happens at attempt k ≤ times the outcome is that Ok after exactly k
invocations, and if the first `times` attempts all fail the outcome is
Err of the failure captured on the last attempt after exactly `times`
invocations. -/
theorem try_retry_spec {T E : Type} (op : Nat → Except JSVal T)
    (catchFn : JSVal → E) (times : Nat) (htimes : 1 ≤ times) :
    (∀ k v, 1 ≤ k → k ≤ times → op k = .ok v →
      (∀ j, 1 ≤ j → j < k → ∃ ex, op j = .error ex) →
      Result.tryRetry op catchFn times = (.ok v, k)) ∧
    ((∀ j, 1 ≤ j → j ≤ times → ∃ ex, op j = .error ex) →
      ∃ ex, op times = .error ex ∧
        Result.tryRetry op catchFn times = (.err (catchFn ex), times)) := by
  have h := tryRetryAux_spec op catchFn (times - 1) 1
  have harith : 1 + (times - 1) = times := by omega
  rw [harith] at h
  exact h

/-- Witness for C5 at the spec's example: an operation failing on
attempts 1 and 2 and succeeding on attempt 3, retried with times = 3,
yields Ok "success" after exactly 3 invocations. -/
theorem try_retry_spec_witness :
    Result.tryRetry retryOpEx (fun _ => "caught") 3 = (.ok "success", 3) :=
  (try_retry_spec retryOpEx (fun _ => "caught") 3 (by omega)).1 3 "success"
    (by omega) (by omega) rfl
    (by
      intro j h1 h2
      interval_cases j <;> exact ⟨JSVal.str "fail", rfl⟩)

/-- Helper: statusOf extracts exactly a string-valued status field. -/
theorem statusOf_eq_some (fields : List (String × JSVal)) (s : String) :
    statusOf fields = some s ↔ fields.lookup "status" = some (JSVal.str s) := by
  unfold statusOf
  cases h : fields.lookup "status" with
  | none => simp
  | some v => cases v <;> simp

/-- C6: hydrate returns an Ok or Err Result exactly when its input is a
plain mapping whose status field is exactly "ok" with a value field or
exactly "error" with an error field, carrying the corresponding
payload; every other input (including null, numbers, mappings of any
other shape and Result instances) yields the null sentinel, and hydrate
is total so it never raises. -/
theorem hydrate_spec (v : JSVal) :
    (∀ fields, v = JSVal.obj fields →
      (∀ pv, fields.lookup "status" = some (JSVal.str "ok") →
        fields.lookup "value" = some pv →
        Result.hydrate v = some (.ok pv)) ∧
      (∀ pe, fields.lookup "status" = some (JSVal.str "error") →
        fields.lookup "error" = some pe →
        Result.hydrate v = some (.err pe))) ∧
    ((Result.hydrate v).isSome ↔
      ∃ fields, v = JSVal.obj fields ∧
        ((fields.lookup "status" = some (JSVal.str "ok") ∧
            (fields.lookup "value").isSome) ∨
         (fields.lookup "status" = some (JSVal.str "error") ∧
            (fields.lookup "error").isSome))) := by
  constructor
  · rintro fields rfl
    constructor
    · intro pv hs hv
      have hs2 : statusOf fields = some "ok" := (statusOf_eq_some fields "ok").2 hs
      simp [Result.hydrate, hs2, hv]
    · intro pe hs he
      have hs2 : statusOf fields = some "error" := (statusOf_eq_some fields "error").2 hs
      have hs3 : ¬ statusOf fields = some "ok" := by simp [hs2]
      simp [Result.hydrate, hs2, hs3, he]
  · cases v with
    | obj fields =>
      simp only [Result.hydrate, JSVal.obj.injEq]
      constructor
      · intro hsome
        refine ⟨fields, rfl, ?_⟩
        by_cases h1 : statusOf fields = some "ok"
        · left
          refine ⟨(statusOf_eq_some fields "ok").1 h1, ?_⟩
          rw [if_pos h1] at hsome
          cases hv : fields.lookup "value" with
          | some pv => simp
          | none => rw [hv] at hsome; simp at hsome
        · by_cases h2 : statusOf fields = some "error"
          · right
            refine ⟨(statusOf_eq_some fields "error").1 h2, ?_⟩
            rw [if_neg h1, if_pos h2] at hsome
            cases he : fields.lookup "error" with
            | some pe => simp
            | none => rw [he] at hsome; simp at hsome
          · rw [if_neg h1, if_neg h2] at hsome
            simp at hsome
      · rintro ⟨fields2, hf, hcase⟩
        cases hf
        rcases hcase with ⟨hs, hv⟩ | ⟨hs, he⟩
        · have hs2 : statusOf fields = some "ok" := (statusOf_eq_some fields "ok").2 hs
          rw [if_pos hs2]
          obtain ⟨pv, hpv⟩ := Option.isSome_iff_exists.1 hv
          rw [hpv]
          simp
        · have hs2 : statusOf fields = some "error" := (statusOf_eq_some fields "error").2 hs
          have hs3 : ¬ statusOf fields = some "ok" := by simp [hs2]
          rw [if_neg hs3, if_pos hs2]
          obtain ⟨pe, hpe⟩ := Option.isSome_iff_exists.1 he
          rw [hpe]
          simp
    | null => simp [Result.hydrate]
    | undefined => simp [Result.hydrate]
    | boolean b => simp [Result.hydrate]
    | num n => simp [Result.hydrate]
    | str s => simp [Result.hydrate]
    | error e => simp [Result.hydrate]
    | resultInst s p => simp [Result.hydrate]

/-- Witness for C6 at the spec's examples: a serialized Ok mapping with
value 42 hydrates to Ok 42 and a serialized Err mapping with error
"fail" hydrates to Err "fail". -/
theorem hydrate_spec_witness :
    Result.hydrate (JSVal.obj [("status", .str "ok"), ("value", .num 42)]) =
      some (.ok (.num 42)) ∧
    Result.hydrate (JSVal.obj [("status", .str "error"), ("error", .str "fail")]) =
      some (.err (.str "fail")) :=
  ⟨(((hydrate_spec (JSVal.obj [("status", .str "ok"), ("value", .num 42)])).1
      [("status", .str "ok"), ("value", .num 42)] rfl).1 (.num 42) rfl rfl),
   (((hydrate_spec (JSVal.obj [("status", .str "error"), ("error", .str "fail")])).1
      [("status", .str "error"), ("error", .str "fail")] rfl).2 (.str "fail") rfl rfl)⟩

/-- C4: no Result-core operation other than unwrap raises an exception
for any input: every pipeline of map, mapError, andThen, tap,
try-wrapped throwing operations and generator compositions evaluates to
Except.ok of a Result — failures only travel as Err values — while
unwrap on an Err does raise. -/
theorem core_never_raises {E : Type} :
    (∀ (r : Result Int E) (steps : List (Step E)),
      ∃ r2, evalChain r steps = Except.ok r2) ∧
    (∀ (e : E) (toStr : E → String),
      ∃ ex, Result.unwrap toStr (Result.err e : Result Int E) none =
        Except.error ex) := by
  constructor
  · intro r steps
    induction steps generalizing r with
    | nil => exact ⟨r, rfl⟩
    | cons s rest ih => cases s <;> exact ih _
  · intro e toStr
    exact ⟨_, rfl⟩

end BetterResult
